import Mathlib

/-!
Shallow embedding of the K-cup storefront core (cart-to-order workflow).

Embedded from:
- the storage layer (`DatabaseStorage` in the storage module): product,
  cart, order and order-item operations over a relational store, modelled
  here as explicit state passing over a `DB` record of tables (lists of
  rows);
- the route orchestration (`registerRoutes`, in particular the
  `POST /api/orders` handler): the place-order sequence
  createOrder -> createOrderItem per line -> clearCart, executed as
  sequential independent store calls with no transaction.

Monetary values are persisted by the code as decimal(10,2) columns
(strings in transit); every storable amount is a whole number of cents,
so money is modelled as `Int` cents. Timestamps, image URLs and other
display-only columns that no claim depends on are omitted; surrogate ids
are drawn from a single `nextId` counter standing for the serial columns.
-/

namespace KCup

/-- Product row (table `products`): id, display fields, decimal price
(here: cents), stock flag. -/
structure Product where
  id : Nat
  name : String
  price : Int
  inStock : Bool
deriving Repr, DecidableEq

/-- Cart item row (table `cart_items`): session-scoped reference to a
product with a quantity. -/
structure CartItem where
  id : Nat
  sessionId : String
  productId : Nat
  quantity : Int
deriving Repr, DecidableEq

/-- Insert shape for a cart item (`insertCartItemSchema`): no id, the
store assigns one. -/
structure InsertCartItem where
  sessionId : String
  productId : Nat
  quantity : Int
deriving Repr, DecidableEq

/-- Order header row (table `orders`): customer fields, decimal total
(cents), status string. -/
structure Order where
  id : Nat
  customerName : String
  totalAmount : Int
  status : String
deriving Repr, DecidableEq

/-- Insert shape for an order header (`insertOrderSchema`): the client
request body, including the client-supplied totalAmount. -/
structure InsertOrder where
  customerName : String
  totalAmount : Int
  status : String
deriving Repr, DecidableEq

/-- Order line row (table `order_items`): order reference, product
reference, quantity, snapshot price column (cents). -/
structure OrderItem where
  id : Nat
  orderId : Nat
  productId : Nat
  quantity : Int
  price : Int
deriving Repr, DecidableEq

/-- Insert shape for an order line (`insertOrderItemSchema`). -/
structure InsertOrderItem where
  orderId : Nat
  productId : Nat
  quantity : Int
  price : Int
deriving Repr, DecidableEq

/-- Patch shape for `updateProduct` (`insertProductSchema.partial()`):
each updatable column optionally present; the id column is not part of
the insert schema and hence never patched. -/
structure ProductPatch where
  name : Option String
  price : Option Int
  inStock : Option Bool
deriving Repr, DecidableEq

/-- The durable store: one list of rows per table the claims touch, plus
the surrogate-id counter. -/
structure DB where
  products : List Product
  cartItems : List CartItem
  orders : List Order
  orderItems : List OrderItem
  nextId : Nat
deriving Repr, DecidableEq

/-- Storage `getProduct`: select from products where id = id, first row
or undefined. -/
def getProduct (db : DB) (id : Nat) : Option Product :=
  (db.products.filter (fun p => p.id == id)).head?

/-- Column-wise application of a partial product update (`set { ...product }`). -/
def applyPatch (p : Product) (patch : ProductPatch) : Product :=
  { p with
    name := patch.name.getD p.name
    price := patch.price.getD p.price
    inStock := patch.inStock.getD p.inStock }

/-- Storage `updateProduct`: update products set ...patch where id = id,
returning the updated row (undefined when no row matches). Only the
products table is written. -/
def updateProduct (db : DB) (id : Nat) (patch : ProductPatch) : Option Product × DB :=
  let newProducts := db.products.map (fun p => if p.id == id then applyPatch p patch else p)
  ((newProducts.filter (fun p => p.id == id)).head?, { db with products := newProducts })

/-- Storage `deleteProduct`: delete from products where id = id. -/
def deleteProduct (db : DB) (id : Nat) : DB :=
  { db with products := db.products.filter (fun p => !(p.id == id)) }

/-- SQL left join: every left row appears; paired with each matching
right row, or with none when no right row matches. -/
def sqlLeftJoin (l : List α) (r : List β) (cond : α → β → Bool) : List (α × Option β) :=
  match l with
  | [] => []
  | a :: rest =>
    (match r.filter (cond a) with
     | [] => [(a, none)]
     | ms => ms.map (fun b => (a, some b))) ++ sqlLeftJoin rest r cond

/-- Storage `getCartItems`: select from cart_items left join products on
productId = id where sessionId = s, then map each row to the cart row
with its joined product. The source writes `row.products!` — a
type-level non-null assertion with no runtime effect — so the product
component really is optional: it is none when the referenced product has
been deleted. -/
def getCartItems (db : DB) (s : String) : List (CartItem × Option Product) :=
  ((sqlLeftJoin db.cartItems db.products (fun ci p => ci.productId == p.id)).filter
    (fun row => row.1.sessionId == s)).map (fun row => (row.1, row.2))

/-- Storage `addToCart`: read the existing row for (sessionId,
productId); when present, update its quantity to existing + new and
return the updated row; otherwise insert a fresh row with the given
quantity. -/
def addToCart (db : DB) (item : InsertCartItem) : CartItem × DB :=
  match (db.cartItems.filter
      (fun ci => ci.sessionId == item.sessionId && ci.productId == item.productId)).head? with
  | some existing =>
    let newCart := db.cartItems.map (fun ci =>
      if ci.id == existing.id then { ci with quantity := existing.quantity + item.quantity } else ci)
    ({ existing with quantity := existing.quantity + item.quantity },
     { db with cartItems := newCart })
  | none =>
    let newRow : CartItem := ⟨db.nextId, item.sessionId, item.productId, item.quantity⟩
    (newRow, { db with cartItems := db.cartItems ++ [newRow], nextId := db.nextId + 1 })

/-- Storage `updateCartItem`: update cart_items set quantity where id =
id, returning the updated row — undefined (here: none) when no row has
that id; no existence check and no bound on the quantity value. -/
def updateCartItem (db : DB) (id : Nat) (quantity : Int) : Option CartItem × DB :=
  let newCart := db.cartItems.map (fun ci =>
    if ci.id == id then { ci with quantity := quantity } else ci)
  ((newCart.filter (fun ci => ci.id == id)).head?, { db with cartItems := newCart })

/-- Storage `removeFromCart`: delete from cart_items where id = id. -/
def removeFromCart (db : DB) (id : Nat) : DB :=
  { db with cartItems := db.cartItems.filter (fun ci => !(ci.id == id)) }

/-- Storage `clearCart`: delete from cart_items where sessionId = s. -/
def clearCart (db : DB) (s : String) : DB :=
  { db with cartItems := db.cartItems.filter (fun ci => !(ci.sessionId == s)) }

/-- Storage `createOrder`: insert the header row exactly as given
(client-supplied totalAmount included), with a fresh id. -/
def createOrder (db : DB) (o : InsertOrder) : Order × DB :=
  let newOrder : Order := ⟨db.nextId, o.customerName, o.totalAmount, o.status⟩
  (newOrder, { db with orders := db.orders ++ [newOrder], nextId := db.nextId + 1 })

/-- Storage `createOrderItem`: insert the line row exactly as given
(client-supplied price included), with a fresh id. -/
def createOrderItem (db : DB) (oi : InsertOrderItem) : OrderItem × DB :=
  let newItem : OrderItem := ⟨db.nextId, oi.orderId, oi.productId, oi.quantity, oi.price⟩
  (newItem, { db with orderItems := db.orderItems ++ [newItem], nextId := db.nextId + 1 })

/-- Line item as submitted in the `POST /api/orders` body: productId,
quantity, and a client-supplied price field. -/
structure OrderLineReq where
  productId : Nat
  quantity : Int
  price : Int
deriving Repr, DecidableEq

/-- Request to the `POST /api/orders` handler: the session, the order
header fields (with the client-supplied totalAmount) and the line list. -/
structure PlaceOrderRequest where
  sessionId : String
  orderInfo : InsertOrder
  lines : List OrderLineReq
deriving Repr, DecidableEq

/-- One pass of the item loop in `POST /api/orders`: insert the line for
the given order id, keeping the state. -/
def placeOrderItemStep (orderId : Nat) (d : DB) (it : OrderLineReq) : DB :=
  (createOrderItem d ⟨orderId, it.productId, it.quantity, it.price⟩).2

/-- Route handler `POST /api/orders`, complete run: create the header
from the request body, insert one order item per submitted line (prices
and quantities taken from the request), then clear the session cart.
There is no product lookup, no stock check, and no transaction — just
this sequence of independent store calls. -/
def placeOrder (db : DB) (req : PlaceOrderRequest) : Order × DB :=
  let hdr := createOrder db req.orderInfo
  let db2 := req.lines.foldl (placeOrderItemStep hdr.1.id) hdr.2
  (hdr.1, clearCart db2 req.sessionId)

/-- State after only the first k store calls of the `POST /api/orders`
handler have run (call 0 = createOrder, calls 1..n = the item inserts,
call n+1 = clearCart): the state left behind when the handler throws
after call k, since there is no transaction to roll the calls back. -/
def placeOrderAfterCalls (db : DB) (req : PlaceOrderRequest) (k : Nat) : DB :=
  if k = 0 then db
  else
    let hdr := createOrder db req.orderInfo
    let db2 := (req.lines.take (k - 1)).foldl (placeOrderItemStep hdr.1.id) hdr.2
    if req.lines.length + 2 ≤ k then clearCart db2 req.sessionId else db2

/-- Order aggregate returned by the read path: header plus the line
items the read reconstructs, each with its joined product row. -/
structure OrderWithItems where
  order : Order
  items : List (OrderItem × Product)
deriving Repr, DecidableEq

/-- Row set shared by `getOrders` and `getOrder`: orders left join
order_items on orders.id = orderId, left join products on
orderItems.productId = products.id (no match when the line side is
already null). -/
def orderRows (db : DB) : List ((Order × Option OrderItem) × Option Product) :=
  sqlLeftJoin (sqlLeftJoin db.orders db.orderItems (fun o oi => o.id == oi.orderId)) db.products
    (fun row p =>
      match row.2 with
      | some oi => oi.productId == p.id
      | none => false)

/-- Grouping step of `getOrders`: append an item to the aggregate whose
header has the given order id. -/
def pushItem (acc : List OrderWithItems) (oid : Nat) (item : OrderItem × Product) :
    List OrderWithItems :=
  acc.map (fun ow => if ow.order.id == oid then { ow with items := ow.items ++ [item] } else ow)

/-- Line extraction guard shared by both read paths (`if (orderItem &&
product)` in the grouping loop, `row.order_items && row.products` in
the single-order filter): a joined row yields a line only when both the
order_items side and the products side are non-null. -/
def owItemOfRow (row : (Order × Option OrderItem) × Option Product) :
    Option (OrderItem × Product) :=
  match row.1.2, row.2 with
  | some oi, some p => some (oi, p)
  | _, _ => none

/-- One row of the `getOrders` grouping loop: ensure the header is in
the map, then push the item only when the row passes the non-null
guard. -/
def getOrdersStep (acc : List OrderWithItems)
    (row : (Order × Option OrderItem) × Option Product) : List OrderWithItems :=
  let o := row.1.1
  let acc1 := if acc.any (fun ow => ow.order.id == o.id) then acc else acc ++ [⟨o, []⟩]
  match owItemOfRow row with
  | some item => pushItem acc1 o.id item
  | none => acc1

/-- Storage `getOrders`: run the double left join and group rows by
order id, keeping a line item only when its product row is non-null.
The orderBy(desc(createdAt)) clause is omitted: no claim depends on the
ordering of the returned aggregates. -/
def getOrders (db : DB) : List OrderWithItems :=
  (orderRows db).foldl getOrdersStep []

/-- Storage `getOrder`: same join restricted to one order id; undefined
when no row matches, otherwise the header of the first row plus the rows
whose order_items and products sides are both non-null. -/
def getOrder (db : DB) (id : Nat) : Option OrderWithItems :=
  match (orderRows db).filter (fun row => row.1.1.id == id) with
  | [] => none
  | r0 :: rest => some ⟨r0.1.1, (r0 :: rest).filterMap owItemOfRow⟩

/-- Total the spec prescribes for an order, written from the spec for
comparison with the code: the sum over the submitted lines of the
Catalog current unit price of the referenced product times the line
quantity (exact in cents, so the final 2-decimal round-half-up is the
identity); undefined when some referenced product is missing from the
Catalog. -/
def specCatalogTotal (db : DB) (lines : List OrderLineReq) : Option Int :=
  (lines.mapM (fun it => (getProduct db it.productId).map (fun p => p.price * it.quantity))).map
    List.sum

/-- Sum of price times quantity over the stored order_items rows of one
order, as the Sum invariant reads it. -/
def orderItemsTotal (db : DB) (orderId : Nat) : Int :=
  ((db.orderItems.filter (fun oi => oi.orderId == orderId)).map
    (fun oi => oi.price * oi.quantity)).sum

/-- Rows of the cart_items table belonging to one (sessionId, productId)
pair. -/
def pairRows (db : DB) (s : String) (p : Nat) : List CartItem :=
  db.cartItems.filter (fun ci => ci.sessionId == s && ci.productId == p)

/-- Run a sequence of add-to-cart calls for one (sessionId, productId)
pair with the given quantities. -/
def addSeq (db : DB) (s : String) (p : Nat) (qs : List Int) : DB :=
  qs.foldl (fun d q => (addToCart d ⟨s, p, q⟩).2) db

/-- Catalog product used in the concrete runs: id 1, price 24.99 (2499
cents), in stock. -/
def prodSidamo : Product := ⟨1, "Ethiopian Sidamo", 2499, true⟩

/-- Catalog product marked unavailable: id 2, price 23.99, out of
stock. -/
def prodDecaf : Product := ⟨2, "Decaf Colombian", 2399, false⟩

/-- Concrete store: one in-stock product and one cart row for session
s1 referencing it. -/
def dbCatalog : DB := ⟨[prodSidamo], [⟨10, "s1", 1, 2⟩], [], [], 11⟩

/-- Concrete tampered checkout request: the client asks for product 1
twice but supplies price 1.00 per unit and totalAmount 9.99, far from
the Catalog price of 24.99. -/
def reqTamper : PlaceOrderRequest := ⟨"s1", ⟨"Alice", 999, "pending"⟩, [⟨1, 2, 100⟩]⟩

/-- Concrete store for the validation run: only an out-of-stock product
and one cart row for session s2. -/
def dbNoStock : DB := ⟨[prodDecaf], [⟨10, "s2", 2, 1⟩], [], [], 11⟩

/-- Concrete checkout request whose lines reference a product id absent
from the Catalog (42) and a product marked unavailable (2). -/
def reqBadLines : PlaceOrderRequest := ⟨"s2", ⟨"Bob", 500, "pending"⟩, [⟨42, 1, 100⟩, ⟨2, 1, 2399⟩]⟩

/-- Concrete store holding an order whose only line references product
id 5, which is absent from the products table (deleted from the
Catalog). -/
def dbTombstone : DB := ⟨[], [], [⟨1, "Alice", 2499, "pending"⟩], [⟨2, 1, 5, 1, 2499⟩], 3⟩

/-- Concrete store with a single cart row (id 1, quantity 2) for the
quantity-update runs. -/
def dbCartOne : DB := ⟨[prodSidamo], [⟨1, "s1", 1, 2⟩], [], [], 2⟩

/-- Claim C1: the claim fails on the code. Running the place-order handler on
a concrete store shows the stored totalAmount is exactly the
client-supplied 9.99 and the stored line price the client-supplied
1.00, while the Catalog-derived total of the same lines is 49.98: the
total and the per-line prices are taken from the client request, and
the Catalog is never consulted. -/
theorem placeOrder_total_from_client_not_catalog :
    (placeOrder dbCatalog reqTamper).1.totalAmount = 999 ∧
    (placeOrder dbCatalog reqTamper).2.orders = [⟨11, "Alice", 999, "pending"⟩] ∧
    (placeOrder dbCatalog reqTamper).2.orderItems = [⟨12, 11, 1, 2, 100⟩] ∧
    specCatalogTotal dbCatalog reqTamper.lines = some 4998 ∧
    (999 : Int) ≠ 4998 := by
  refine ⟨rfl, by decide, by decide, by decide, by decide⟩

/-- Claim C2: the claim fails on the code. The handler issues sequential
store calls with no transaction; in the state left behind when it
throws right after the header insert (call 1 of the run on the concrete
store), the order header exists and is visible to the order read path
with none of its items written, and the cart still holds its rows — a
header without all its items is visible to readers. -/
theorem placeOrder_midfailure_header_visible :
    (placeOrderAfterCalls dbCatalog reqTamper 1).orders = [⟨11, "Alice", 999, "pending"⟩] ∧
    (placeOrderAfterCalls dbCatalog reqTamper 1).orderItems = [] ∧
    getOrders (placeOrderAfterCalls dbCatalog reqTamper 1) =
      [⟨⟨11, "Alice", 999, "pending"⟩, []⟩] ∧
    (placeOrderAfterCalls dbCatalog reqTamper 1).cartItems = dbCatalog.cartItems := by
  refine ⟨by decide, by decide, by decide, by decide⟩

/-- Claim C3: the claim fails on the code. After the concrete place-order run
the stored lines of the new order sum to 2.00 while the stored header
totalAmount is 9.99 — the Sum invariant is not enforced at creation,
because both numbers are taken verbatim from the client request. -/
theorem placeOrder_sum_invariant_fails :
    orderItemsTotal (placeOrder dbCatalog reqTamper).2 (placeOrder dbCatalog reqTamper).1.id
      = 200 ∧
    (placeOrder dbCatalog reqTamper).1.totalAmount = 999 ∧
    (200 : Int) ≠ 999 := by
  refine ⟨by decide, rfl, by decide⟩

/-- Claim C5: the claim fails on the code. A checkout whose lines reference a
product id absent from the Catalog and a product marked out of stock is
accepted in full: the handler performs no product resolution or stock
check, creates the header and both lines, and clears the session cart. -/
theorem placeOrder_accepts_missing_and_out_of_stock :
    getProduct dbNoStock 42 = none ∧
    getProduct dbNoStock 2 = some prodDecaf ∧
    prodDecaf.inStock = false ∧
    (placeOrder dbNoStock reqBadLines).2.orders.length = 1 ∧
    (placeOrder dbNoStock reqBadLines).2.orderItems.length = 2 ∧
    (placeOrder dbNoStock reqBadLines).2.cartItems = [] := by
  refine ⟨by decide, by decide, rfl, by decide, by decide, by decide⟩

/-- Claim C8: the claim fails on the code. For an order whose only line
references a product deleted from the Catalog, both read paths return
the order with an empty line list — the `orderItem && product` guard in
the grouping loop silently drops the line instead of substituting a
tombstone product view. -/
theorem getOrder_drops_line_with_deleted_product :
    dbTombstone.orderItems = [⟨2, 1, 5, 1, 2499⟩] ∧
    getOrder dbTombstone 1 = some ⟨⟨1, "Alice", 2499, "pending"⟩, []⟩ ∧
    getOrders dbTombstone = [⟨⟨1, "Alice", 2499, "pending"⟩, []⟩] := by
  refine ⟨rfl, by decide, by decide⟩

/-- Claim C9: the claim fails on the code. updateCartItem with quantity 0 on
an existing row succeeds and stores 0 (no InvalidArgument), and
updateCartItem on a missing id performs an update matching no row and
returns undefined while the route still answers 200 (no NotFound
error). -/
theorem updateCartItem_accepts_zero_and_missing_id :
    updateCartItem dbCartOne 1 0 =
      (some ⟨1, "s1", 1, 0⟩, { dbCartOne with cartItems := [⟨1, "s1", 1, 0⟩] }) ∧
    updateCartItem dbCartOne 99 5 = (none, dbCartOne) := by
  refine ⟨by decide, by decide⟩

theorem foldl_itemStep_cartItems (lines : List OrderLineReq) (oid : Nat) :
    ∀ d : DB, (lines.foldl (placeOrderItemStep oid) d).cartItems = d.cartItems := by
  induction lines with
  | nil => intro d; rfl
  | cons it rest ih =>
    intro d
    simpa using ih (placeOrderItemStep oid d it)

/-- Claim C7: placing an order for a session removes exactly the cart rows
of that session (the final store call is clearCart, and the order writes do
not touch the cart table), so the resulting cart table is the original
one with the rows of that session filtered out and every other session
untouched; and clearCart run twice for the same session equals clearCart
run once. -/
theorem checkout_clears_session_cart (db : DB) (req : PlaceOrderRequest) (s : String) :
    (placeOrder db req).2.cartItems =
      db.cartItems.filter (fun ci => !(ci.sessionId == req.sessionId)) ∧
    clearCart (clearCart db s) s = clearCart db s := by
  constructor
  · simp [placeOrder, clearCart, foldl_itemStep_cartItems, createOrder]
  · simp [clearCart, List.filter_filter]

theorem pairRows_eq_filter (db : DB) (s : String) (p : Nat) :
    pairRows db s p = db.cartItems.filter (fun ci => ci.sessionId == s && ci.productId == p) :=
  rfl

theorem addToCart_pair_first (db : DB) (s : String) (p : Nat) (q : Int)
    (h0 : pairRows db s p = []) :
    pairRows (addToCart db ⟨s, p, q⟩).2 s p = [⟨db.nextId, s, p, q⟩] := by
  rw [pairRows_eq_filter] at h0
  unfold addToCart
  simp only [h0, List.head?_nil]
  rw [pairRows_eq_filter]
  simp [h0]

theorem addToCart_pair_merge (db : DB) (s : String) (p : Nat) (q : Int) (c : CartItem)
    (h1 : pairRows db s p = [c]) :
    pairRows (addToCart db ⟨s, p, q⟩).2 s p = [{ c with quantity := c.quantity + q }] := by
  rw [pairRows_eq_filter] at h1
  unfold addToCart
  simp only [h1, List.head?_cons]
  rw [pairRows_eq_filter]
  simp only [List.filter_map]
  have hcong : db.cartItems.filter
      ((fun ci => ci.sessionId == s && ci.productId == p) ∘ fun ci =>
        if ci.id == c.id then { ci with quantity := c.quantity + q } else ci) =
      db.cartItems.filter (fun ci => ci.sessionId == s && ci.productId == p) := by
    apply List.filter_congr
    intro ci _
    by_cases hid : (ci.id == c.id) = true <;> simp [Function.comp, hid]
  rw [hcong, h1]
  simp

theorem addSeq_pair_merge (s : String) (p : Nat) (qs : List Int) :
    ∀ (db : DB) (c : CartItem), pairRows db s p = [c] →
      pairRows (addSeq db s p qs) s p = [{ c with quantity := c.quantity + qs.sum }] := by
  induction qs with
  | nil =>
    intro db c h1
    simpa [addSeq] using h1
  | cons q rest ih =>
    intro db c h1
    have hstep := addToCart_pair_merge db s p q c h1
    have := ih (addToCart db ⟨s, p, q⟩).2 { c with quantity := c.quantity + q } hstep
    simpa [addSeq, add_assoc] using this

/-- Claim C4: for a (sessionId, productId) pair with no pre-existing cart
row, any non-empty sequence of add-to-cart calls with quantities
q1..qn leaves exactly one cart row for the pair, created by the first
call (its id is the id counter at that moment) and carrying quantity
q1 + ... + qn: later calls increment the existing row instead of
inserting a duplicate. -/
theorem addToCart_merge (db : DB) (s : String) (p : Nat) (qs : List Int)
    (h0 : pairRows db s p = []) (hne : qs ≠ []) :
    pairRows (addSeq db s p qs) s p = [⟨db.nextId, s, p, qs.sum⟩] := by
  cases qs with
  | nil => exact absurd rfl hne
  | cons q rest =>
    have hfirst := addToCart_pair_first db s p q h0
    have := addSeq_pair_merge s p rest (addToCart db ⟨s, p, q⟩).2 ⟨db.nextId, s, p, q⟩ hfirst
    simpa [addSeq] using this

/-- Witness for C4: on the concrete store, whose cart has no row for
the pair (s9, 7), adding quantities 2 then 1 yields the single row with
id 11 and quantity 3. -/
theorem addToCart_merge_witness :
    pairRows dbCatalog "s9" 7 = [] ∧ ([2, 1] : List Int) ≠ [] ∧
    pairRows (addSeq dbCatalog "s9" 7 [2, 1]) "s9" 7 = [⟨11, "s9", 7, 3⟩] :=
  ⟨by decide, by decide, addToCart_merge dbCatalog "s9" 7 [2, 1] (by decide) (by decide)⟩

theorem sqlLeftJoin_of_unique (l : List α) (r : List β) (cond : α → β → Bool)
    (h : ∀ a, (r.filter (cond a)).length ≤ 1) :
    sqlLeftJoin l r cond = l.map (fun a => (a, (r.filter (cond a)).head?)) := by
  induction l with
  | nil => rfl
  | cons a rest ih =>
    rw [sqlLeftJoin]
    cases hm : r.filter (cond a) with
    | nil => simp only [hm, List.head?_nil, List.map_cons, ih, List.singleton_append]
    | cons b ms =>
      have hlen := h a
      rw [hm, List.length_cons] at hlen
      have hms : ms = [] := List.length_eq_zero.mp (by omega)
      subst hms
      simp only [hm, List.head?_cons, List.map_cons, ih, List.map_nil, List.singleton_append,
        List.nil_append]

theorem filter_beq_id_short (r : List Product)
    (h : (r.map (fun p => p.id)).Nodup) (pid : Nat) :
    (r.filter (fun p => pid == p.id)).length ≤ 1 := by
  induction r with
  | nil => simp
  | cons p0 rest ih =>
    rw [List.map_cons, List.nodup_cons] at h
    obtain ⟨hnotin, hrest⟩ := h
    by_cases hb : pid = p0.id
    · subst hb
      have hnil : rest.filter (fun p => p0.id == p.id) = [] := by
        simp only [List.filter_eq_nil_iff, beq_iff_eq]
        intro p hp hpp
        exact hnotin (List.mem_map.mpr ⟨p, hp, hpp.symm⟩)
      simp [List.filter_cons, hnil]
    · have hb2 : (pid == p0.id) = false := by simpa using hb
      simpa [List.filter_cons, hb2] using ih hrest

theorem etaPairMap (l : List (α × β)) : l.map (fun row => (row.1, row.2)) = l := by
  simp

theorem getProduct_flip (db : DB) (pid : Nat) :
    getProduct db pid = (db.products.filter (fun p => pid == p.id)).head? := by
  unfold getProduct
  congr 1
  apply List.filter_congr
  intro p _
  exact Bool.beq_comm

theorem mapPair_filter_fst (l : List CartItem) (g : CartItem → Option Product) (s : String) :
    ((l.map (fun a => (a, g a))).filter (fun row => row.1.sessionId == s)).map Prod.fst =
      l.filter (fun ci => ci.sessionId == s) := by
  induction l with
  | nil => rfl
  | cons a rest ih =>
    by_cases hs : (a.sessionId == s) = true
    · simp [List.filter_cons, hs, ih]
    · simp [List.filter_cons, hs, ih]

/-- Claim C10: when catalog product ids are distinct (serial primary key),
listing the cart of a session returns exactly one entry per cart row of that
session — no row is filtered out — and the product component of each entry
equals the current catalog lookup of the productId of the row, so it is none
at runtime exactly when the referenced product has been deleted, even
though the CartItemWithProduct type asserts it present. -/
theorem getCartItems_complete (db : DB) (s : String)
    (h : (db.products.map (fun p => p.id)).Nodup) :
    (getCartItems db s).map Prod.fst =
      db.cartItems.filter (fun ci => ci.sessionId == s) ∧
    ∀ e ∈ getCartItems db s, e.2 = getProduct db e.1.productId := by
  have hlen : ∀ ci : CartItem,
      (db.products.filter (fun p => ci.productId == p.id)).length ≤ 1 :=
    fun ci => filter_beq_id_short db.products h ci.productId
  have hjoin := sqlLeftJoin_of_unique db.cartItems db.products
    (fun ci p => ci.productId == p.id) hlen
  constructor
  · unfold getCartItems
    rw [hjoin, etaPairMap]
    exact mapPair_filter_fst db.cartItems
      (fun a => (db.products.filter (fun p => a.productId == p.id)).head?) s
  · intro e he
    unfold getCartItems at he
    rw [hjoin, etaPairMap] at he
    obtain ⟨hmem, _⟩ := List.mem_filter.mp he
    obtain ⟨ci, _, rfl⟩ := List.mem_map.mp hmem
    rw [getProduct_flip]

/-- Concrete store for the cart-listing witness: products table holds
only product 1, while cart row 2 of session s1 references the deleted
product 5. -/
def dbJoin : DB := ⟨[prodSidamo], [⟨1, "s1", 1, 2⟩, ⟨2, "s1", 5, 1⟩, ⟨3, "s2", 1, 4⟩], [], [], 4⟩

/-- Witness for C10: on the concrete store the catalog ids are distinct
and the conclusion evaluates — in particular the row referencing the
deleted product 5 is still returned, with product component none. -/
theorem getCartItems_complete_witness :
    (dbJoin.products.map (fun p => p.id)).Nodup ∧
    ((getCartItems dbJoin "s1").map Prod.fst =
        dbJoin.cartItems.filter (fun ci => ci.sessionId == "s1") ∧
      ∀ e ∈ getCartItems dbJoin "s1", e.2 = getProduct dbJoin e.1.productId) :=
  ⟨by decide, getCartItems_complete dbJoin "s1" (by decide)⟩

theorem sqlLeftJoin_map_right (l : List α) (r : List β) (g : β → β) (cond : α → β → Bool)
    (hg : ∀ a b, cond a (g b) = cond a b) :
    sqlLeftJoin l (r.map g) cond =
      (sqlLeftJoin l r cond).map (fun row => (row.1, row.2.map g)) := by
  induction l with
  | nil => rfl
  | cons a rest ih =>
    rw [sqlLeftJoin, sqlLeftJoin]
    have hfil : (r.map g).filter (cond a) = (r.filter (cond a)).map g := by
      rw [List.filter_map]
      congr 1
      apply List.filter_congr
      intro b _
      exact hg a b
    rw [hfil, List.map_append, ih]
    congr 1
    cases hm : r.filter (cond a) with
    | nil => rfl
    | cons b ms => simp

/-- Snapshot view of an order aggregate: the header and the stored
order_items rows (quantity and snapshot price), with the joined display
products stripped off. -/
def stripOW (ow : OrderWithItems) : Order × List OrderItem := (ow.order, ow.items.map Prod.fst)

theorem owItemOfRow_map_right (g : Product → Product)
    (row : (Order × Option OrderItem) × Option Product) :
    owItemOfRow (row.1, row.2.map g) =
      (owItemOfRow row).map (fun pr => (pr.1, g pr.2)) := by
  rcases row with ⟨⟨o, oi?⟩, p?⟩
  cases oi? <;> cases p? <;> rfl

theorem filterMap_ow_map_right (g : Product → Product)
    (l : List ((Order × Option OrderItem) × Option Product)) :
    (((l.map (fun row => (row.1, row.2.map g))).filterMap owItemOfRow).map Prod.fst) =
      ((l.filterMap owItemOfRow).map Prod.fst) := by
  rw [List.filterMap_map]
  have hcomp : (owItemOfRow ∘ fun row =>
      (((row.1, row.2.map g)) : (Order × Option OrderItem) × Option Product)) =
      fun row => (owItemOfRow row).map (fun pr => (pr.1, g pr.2)) :=
    funext (owItemOfRow_map_right g)
  rw [hcomp, ← List.map_filterMap, List.map_map]
  rfl

theorem getOrder_products_map (db : DB) (g : Product → Product)
    (hg : ∀ p, (g p).id = p.id) (oid : Nat) :
    (getOrder { db with products := db.products.map g } oid).map stripOW =
      (getOrder db oid).map stripOW := by
  have hrows : orderRows { db with products := db.products.map g } =
      (orderRows db).map (fun row => (row.1, row.2.map g)) := by
    unfold orderRows
    apply sqlLeftJoin_map_right
    intro row p
    cases hrow : row.2 with
    | none => rfl
    | some oi => simp [hg p]
  unfold getOrder
  rw [hrows, List.filter_map]
  have hpred : ((fun row => row.1.1.id == oid) ∘ fun row =>
      (((row.1, row.2.map g)) : (Order × Option OrderItem) × Option Product)) =
      (fun row : (Order × Option OrderItem) × Option Product => row.1.1.id == oid) := rfl
  rw [hpred]
  cases hm : (orderRows db).filter (fun row => row.1.1.id == oid) with
  | nil => rfl
  | cons r0 rest =>
    simp only [List.map_cons, Option.map_some, stripOW]
    exact congrArg (fun x => some ((r0.1.1 : Order), x))
      (filterMap_ow_map_right g (r0 :: rest))

/-- Claim C6: updating a product (any combination of name, price and stock
patch) writes only the products table: the orders and order_items
tables are unchanged, and for every order id the read-path aggregate,
stripped to its snapshot content (header including totalAmount, and the
stored lines including their price fields), reads equal before and
after the update — price changes never reach already-placed orders. -/
theorem updateProduct_frame (db : DB) (id : Nat) (patch : ProductPatch) :
    (updateProduct db id patch).2.orders = db.orders ∧
    (updateProduct db id patch).2.orderItems = db.orderItems ∧
    ∀ oid, (getOrder (updateProduct db id patch).2 oid).map stripOW =
      (getOrder db oid).map stripOW := by
  refine ⟨rfl, rfl, fun oid => ?_⟩
  exact getOrder_products_map db (fun p => if p.id == id then applyPatch p patch else p)
    (fun p => by dsimp only; split <;> rfl) oid

end KCup
